import Mathlib

/-!
Verification of the lifetime-normalization pass of `bon-macros`
(`src/bon-macros/src/normalization/lifetimes.rs`).

The pass rewrites anonymous lifetimes (`'_`) and omitted lifetimes on
reference types into freshly generated named lifetimes, registers the
generated names as generic parameters, and performs return-type lifetime
elision following the Rust reference rules.

The embedding below models the `syn` syntax-tree fragment the pass
traverses and each of the four visitors in the source file:

* `NormalizeLifetimes`   (orchestrator, `visit_item_impl_mut` /
  `visit_signature_mut`),
* `AssignLifetimes`      (fresh-lifetime allocator),
* `LifetimeCollector`    (tri-state lifetime counter),
* `ElideOutputLifetime`  (return-type rewriter).

Lifetimes are represented by their identifier string exactly as `syn`
stores them: the anonymous lifetime is the identifier `"_"`, and a
generated lifetime `'__f0` has identifier `"__f0"`.
-/

/-- A lifetime identifier (the `ident` field of `syn::Lifetime`).
The anonymous lifetime has identifier `"_"`. -/
abbrev LifetimeIdent := String

mutual

/-- The fragment of `syn::Type` relevant to the pass.

* `path seg args` — a path type such as `Foo<'a, T>` (a single segment
  with angle-bracketed generic arguments; `args = Args.anil` models a
  plain path such as `u8`).
* `reference lt elem` — `&'lt elem`, with an optional lifetime.
* `bareFn inner` — a function-pointer type (`syn::TypeBareFn`); its
  payload is opaque to every visitor in the source file.
* `paren seg input output` — a path segment with parenthesized generic
  arguments, e.g. `Fn(A) -> B` (`syn::ParenthesizedGenericArguments`);
  its payload is likewise opaque to every visitor.
* `array elem len` — `[elem; len]`; the length is a const expression
  which may contain a nested item. -/
inductive Ty where
  | path (seg : String) (args : Args)
  | reference (lt : Option LifetimeIdent) (elem : Ty)
  | bareFn (inner : Ty)
  | paren (seg : String) (input : Ty) (output : Ty)
  | array (elem : Ty) (len : ConstExpr)
deriving DecidableEq, Repr

/-- Angle-bracketed generic arguments of a path segment, in source
order: each is a lifetime argument or a type argument. -/
inductive Args where
  | anil
  | alt (l : LifetimeIdent) (rest : Args)
  | aty (t : Ty) (rest : Args)
deriving DecidableEq, Repr

/-- A const expression in array-length position: a literal, or a block
containing a nested item (the way a `syn::Item` is reachable from a
type). -/
inductive ConstExpr where
  | lit (n : Nat)
  | blockItem (it : Item)
deriving DecidableEq, Repr

/-- A nested item-like declaration (`syn::Item`); every visitor in the
source overrides `visit_item` to not recurse into it. -/
inductive Item where
  | mk (inner : Ty)
deriving DecidableEq, Repr

end

/-- A generic parameter in a generics list (`syn::GenericParam`):
either a lifetime parameter or some other (type/const) parameter. -/
inductive GenericParam where
  | lifetime (l : LifetimeIdent)
  | other (name : String)
deriving DecidableEq, Repr

/-- The method receiver (`syn::Receiver`).
`reference = some lt` models the sugar form `&'lt self` (with `lt`
optional); `colon = true` models the explicit `self: Type` form, in
which case `syn` sets `reference = None`. In the sugar forms `ty`
holds the receiver type that `syn` synthesizes (e.g. `&'lt Self`). -/
structure Receiver where
  reference : Option (Option LifetimeIdent)
  colon : Bool
  ty : Ty
deriving DecidableEq, Repr

/-- A function argument (`syn::FnArg`): the receiver, or a typed
argument `pat: ty` (the pattern carries no lifetime content and is not
modeled). -/
inductive FnArg where
  | receiver (r : Receiver)
  | typed (ty : Ty)
deriving DecidableEq, Repr

/-- A function signature (`syn::Signature`): its generics list, its
inputs in order, and its optional return type (`output = none` models
`ReturnType::Default`). -/
structure Signature where
  generics : List GenericParam
  inputs : List FnArg
  output : Option Ty
deriving DecidableEq, Repr

/-- An impl block (`syn::ItemImpl`): its generics list, its self type
and the signatures of its method items. -/
structure ItemImpl where
  generics : List GenericParam
  selfTy : Ty
  fns : List Signature
deriving DecidableEq, Repr

/-! ## The `AssignLifetimes` visitor

State of one allocator instance: the generics list it mutates and the
`next_lifetime_index` counter. The naming prefix is passed separately
(it is `"i"` for the impl header and `"f"` for signatures). -/

/-- Mutable state of one `AssignLifetimes` instance. -/
structure AState where
  generics : List GenericParam
  nextLifetimeIndex : Nat
deriving DecidableEq, Repr

/-- The identifier of the lifetime produced by
`format!("'__{}{index}", prefix)`: its `ident` is `__<pre><index>`. -/
def mkLifetimeIdent (pre : String) (index : Nat) : LifetimeIdent :=
  "__" ++ pre ++ toString index

/-- `AssignLifetimes::next_lifetime`: make the lifetime with the next
index and insert its parameter into the generics list at the position
equal to that index. -/
def AssignLifetimes.nextLifetime (pre : String) (s : AState) :
    LifetimeIdent × AState :=
  let index := s.nextLifetimeIndex
  let l := mkLifetimeIdent pre index
  (l, ⟨s.generics.insertIdx index (GenericParam.lifetime l), index + 1⟩)

/-- `AssignLifetimes::visit_lifetime_mut`: replace the anonymous
lifetime by a fresh one, leave named lifetimes alone. -/
def AssignLifetimes.visitLifetime (pre : String) (l : LifetimeIdent)
    (s : AState) : LifetimeIdent × AState :=
  if l = "_" then AssignLifetimes.nextLifetime pre s else (l, s)

/-- `AssignLifetimes::visit_item_mut`: do not recurse into nested
items. -/
def AssignLifetimes.visitItem (it : Item) (s : AState) : Item × AState :=
  (it, s)

mutual

/-- `AssignLifetimes`' traversal of a type, following `syn`'s visitor
dispatch with the three overrides of the source file:

* a reference is visited by the default traversal (lifetime first, if
  present, then the element) and then `get_or_insert_with` fills an
  absent lifetime with a fresh one;
* function-pointer types and parenthesized generic arguments are
  skipped;
* array lengths are const expressions whose only lifetime content sits
  inside a nested item, which `visit_item_mut` skips. -/
def AssignLifetimes.visitType (pre : String) : Ty → AState → Ty × AState
  | Ty.path seg args, s =>
      let r := AssignLifetimes.visitArgs pre args s
      (Ty.path seg r.1, r.2)
  | Ty.reference (some l) elem, s =>
      let rl := AssignLifetimes.visitLifetime pre l s
      let re := AssignLifetimes.visitType pre elem rl.2
      (Ty.reference (some rl.1) re.1, re.2)
  | Ty.reference none elem, s =>
      let re := AssignLifetimes.visitType pre elem s
      let rl := AssignLifetimes.nextLifetime pre re.2
      (Ty.reference (some rl.1) re.1, rl.2)
  | Ty.bareFn inner, s => (Ty.bareFn inner, s)
  | Ty.paren seg input output, s => (Ty.paren seg input output, s)
  | Ty.array elem len, s =>
      let re := AssignLifetimes.visitType pre elem s
      let rc := AssignLifetimes.visitConstExpr len re.2
      (Ty.array re.1 rc.1, rc.2)

/-- Angle-bracketed generic arguments are visited in order; lifetime
arguments go through `visit_lifetime_mut`. -/
def AssignLifetimes.visitArgs (pre : String) : Args → AState → Args × AState
  | Args.anil, s => (Args.anil, s)
  | Args.alt l rest, s =>
      let rl := AssignLifetimes.visitLifetime pre l s
      let rr := AssignLifetimes.visitArgs pre rest rl.2
      (Args.alt rl.1 rr.1, rr.2)
  | Args.aty t rest, s =>
      let rt := AssignLifetimes.visitType pre t s
      let rr := AssignLifetimes.visitArgs pre rest rt.2
      (Args.aty rt.1 rr.1, rr.2)

/-- A const expression contains lifetimes only inside a nested item,
which the overridden `visit_item_mut` leaves untouched. -/
def AssignLifetimes.visitConstExpr : ConstExpr → AState → ConstExpr × AState
  | ConstExpr.lit n, s => (ConstExpr.lit n, s)
  | ConstExpr.blockItem it, s =>
      let ri := AssignLifetimes.visitItem it s
      (ConstExpr.blockItem ri.1, ri.2)

end

/-- The guard `matches!(lifetime, Some(lifetime) if lifetime.ident != "_")`
of `visit_receiver_mut`. -/
def namedLifetime : Option LifetimeIdent → Bool
  | some l => l != "_"
  | none => false

/-- `AssignLifetimes::visit_receiver_mut`: the explicit `self: Type`
form is visited as an ordinary type; in the `&self` sugar form, when
the sugar lifetime is absent or anonymous and the receiver type is a
reference, one fresh lifetime is written into both the sugar slot and
the receiver type's lifetime slot; otherwise nothing changes. -/
def AssignLifetimes.visitReceiver (pre : String) (r : Receiver)
    (s : AState) : Receiver × AState :=
  if r.colon then
    let rt := AssignLifetimes.visitType pre r.ty s
    ({ r with ty := rt.1 }, rt.2)
  else
    match r.reference with
    | none => (r, s)
    | some lt =>
      if namedLifetime lt then (r, s)
      else
        match r.ty with
        | Ty.reference _ elem =>
            let rl := AssignLifetimes.nextLifetime pre s
            ({ r with reference := some (some rl.1),
                      ty := Ty.reference (some rl.1) elem }, rl.2)
        | _ => (r, s)

/-- `AssignLifetimes`' dispatch over a function argument
(`visit_fn_arg_mut`): the receiver goes through `visit_receiver_mut`,
a typed argument through the default `visit_pat_type_mut`, which
visits its type. -/
def AssignLifetimes.visitFnArg (pre : String) : FnArg → AState → FnArg × AState
  | FnArg.receiver r, s =>
      let rr := AssignLifetimes.visitReceiver pre r s
      (FnArg.receiver rr.1, rr.2)
  | FnArg.typed ty, s =>
      let rt := AssignLifetimes.visitType pre ty s
      (FnArg.typed rt.1, rt.2)

/-- The loop `for arg in &mut signature.inputs` running one allocator
instance over all inputs in order. -/
def AssignLifetimes.visitInputs (pre : String) :
    List FnArg → AState → List FnArg × AState
  | [], s => ([], s)
  | arg :: rest, s =>
      let ra := AssignLifetimes.visitFnArg pre arg s
      let rr := AssignLifetimes.visitInputs pre rest ra.2
      (ra.1 :: rr.1, rr.2)

/-! ## The `LifetimeCollector` visitor -/

/-- The tri-state accumulator `LifetimeCollector`. -/
inductive LifetimeCollector where
  | nothing
  | single (l : LifetimeIdent)
  | multiple
deriving DecidableEq, Repr

/-- `LifetimeCollector::visit_lifetime`: the first occurrence moves
`None` to `Single`, a second occurrence of any lifetime reference moves
`Single` to the terminal `Multiple` state. -/
def LifetimeCollector.visitLifetime (acc : LifetimeCollector)
    (l : LifetimeIdent) : LifetimeCollector :=
  match acc with
  | LifetimeCollector.nothing => LifetimeCollector.single l
  | LifetimeCollector.single _ => LifetimeCollector.multiple
  | LifetimeCollector.multiple => LifetimeCollector.multiple

mutual

/-- The collector's read-only walk over a type, following the default
`syn` visitor (a reference's lifetime, when present, is visited before
its element) with the same three skip overrides as the allocator. -/
def LifetimeCollector.visitType : Ty → LifetimeCollector → LifetimeCollector
  | Ty.path _ args, acc => LifetimeCollector.visitArgs args acc
  | Ty.reference lt elem, acc =>
      let acc1 := match lt with
        | some l => acc.visitLifetime l
        | none => acc
      LifetimeCollector.visitType elem acc1
  | Ty.bareFn _, acc => acc
  | Ty.paren _ _ _, acc => acc
  | Ty.array elem _, acc => LifetimeCollector.visitType elem acc

/-- The collector's walk over angle-bracketed generic arguments. -/
def LifetimeCollector.visitArgs : Args → LifetimeCollector → LifetimeCollector
  | Args.anil, acc => acc
  | Args.alt l rest, acc =>
      LifetimeCollector.visitArgs rest (acc.visitLifetime l)
  | Args.aty t rest, acc =>
      LifetimeCollector.visitArgs rest (LifetimeCollector.visitType t acc)

end

/-! ## The `ElideOutputLifetime` visitor -/

mutual

/-- `ElideOutputLifetime`: replace every anonymous lifetime in the
return type by the chosen elided lifetime, and fill any reference
lacking a lifetime with it, skipping the same opaque subtrees. -/
def ElideOutputLifetime.visitType (el : LifetimeIdent) : Ty → Ty
  | Ty.path seg args => Ty.path seg (ElideOutputLifetime.visitArgs el args)
  | Ty.reference lt elem =>
      let lt' := match lt with
        | some l => if l = "_" then el else l
        | none => el
      Ty.reference (some lt') (ElideOutputLifetime.visitType el elem)
  | Ty.bareFn inner => Ty.bareFn inner
  | Ty.paren seg input output => Ty.paren seg input output
  | Ty.array elem len => Ty.array (ElideOutputLifetime.visitType el elem) len

/-- The elider's walk over angle-bracketed generic arguments. -/
def ElideOutputLifetime.visitArgs (el : LifetimeIdent) : Args → Args
  | Args.anil => Args.anil
  | Args.alt l rest =>
      Args.alt (if l = "_" then el else l) (ElideOutputLifetime.visitArgs el rest)
  | Args.aty t rest =>
      Args.aty (ElideOutputLifetime.visitType el t) (ElideOutputLifetime.visitArgs el rest)

end

/-! ## The `NormalizeLifetimes` orchestrator -/

/-- `syn::Receiver::lifetime()`: the lifetime of the `&'lt self` sugar
slot, when both the sugar and its lifetime are present. -/
def Receiver.lifetimeOf (r : Receiver) : Option LifetimeIdent :=
  r.reference.bind fun lt => lt

/-- The receiver branch of the elided-output-lifetime computation: the
first input must be a receiver; its sugar lifetime is used, and
otherwise the lifetime of its reference type, if any. -/
def receiverElisionCandidate (inputs : List FnArg) : Option LifetimeIdent :=
  inputs.head?.bind fun arg =>
    match arg with
    | FnArg.receiver r =>
        match r.lifetimeOf with
        | some l => some l
        | none =>
            match r.ty with
            | Ty.reference lt _ => lt
            | _ => none
    | FnArg.typed _ => none

/-- The collector branch: fold the `LifetimeCollector` over the typed
(non-receiver) inputs; only the `Single` outcome yields a candidate. -/
def collectorElisionCandidate (inputs : List FnArg) : Option LifetimeIdent :=
  let acc := inputs.foldl
    (fun acc arg =>
      match arg with
      | FnArg.typed ty => LifetimeCollector.visitType ty acc
      | FnArg.receiver _ => acc)
    LifetimeCollector.nothing
  match acc with
  | LifetimeCollector.single l => some l
  | _ => none

/-- `NormalizeLifetimes::visit_signature_mut`: run a fresh
`AssignLifetimes` instance with the `"f"` naming prefix over the inputs,
then, when a return type is present, determine the elided output
lifetime (receiver first, collector otherwise) and apply
`ElideOutputLifetime` to the return type when a candidate exists. -/
def NormalizeLifetimes.visitSignature (sig : Signature) : Signature :=
  let ri := AssignLifetimes.visitInputs "f" sig.inputs ⟨sig.generics, 0⟩
  match sig.output with
  | none => { generics := ri.2.generics, inputs := ri.1, output := none }
  | some returnType =>
      let candidate := match receiverElisionCandidate ri.1 with
        | some l => some l
        | none => collectorElisionCandidate ri.1
      match candidate with
      | none =>
          { generics := ri.2.generics, inputs := ri.1, output := some returnType }
      | some el =>
          { generics := ri.2.generics, inputs := ri.1,
            output := some (ElideOutputLifetime.visitType el returnType) }

/-- Observable processing steps of `visit_item_impl_mut`, used to state
in which order the orchestrator mutates the parts of an impl block. -/
inductive Event where
  | sigVisited (i : Nat)
  | headerAssigned
deriving DecidableEq, Repr

/-- `NormalizeLifetimes::visit_item_impl_mut`: the method first runs the
default impl-block traversal, which reaches every method item and
(through the overridden `visit_impl_item_fn_mut`) rewrites only its
signature; after that default traversal returns, it runs an
`AssignLifetimes` instance with the `"i"` naming prefix over the self
type, mutating the impl block's generics list. The returned event list
records the execution order of these steps. -/
def NormalizeLifetimes.visitItemImpl (ib : ItemImpl) : ItemImpl × List Event :=
  let fns' := ib.fns.map NormalizeLifetimes.visitSignature
  let sigEvents := (List.range ib.fns.length).map Event.sigVisited
  let rh := AssignLifetimes.visitType "i" ib.selfTy ⟨ib.generics, 0⟩
  (⟨rh.2.generics, rh.1, fns'⟩, sigEvents ++ [Event.headerAssigned])

/-! ## Structural predicates over the embedded syntax -/

mutual

/-- A type contains no opaque boundary: no function-pointer type, no
parenthesized generic arguments and no nested item. On such a type the
allocator's traversal reaches every lifetime position. -/
def Ty.noOpaque : Ty → Bool
  | Ty.path _ args => args.noOpaque
  | Ty.reference _ elem => elem.noOpaque
  | Ty.bareFn _ => false
  | Ty.paren _ _ _ => false
  | Ty.array elem len => elem.noOpaque && len.noOpaque

/-- No opaque boundary inside generic arguments. -/
def Args.noOpaque : Args → Bool
  | Args.anil => true
  | Args.alt _ rest => rest.noOpaque
  | Args.aty t rest => t.noOpaque && rest.noOpaque

/-- No opaque boundary inside an array-length expression: a nested item
is itself an opaque boundary. -/
def ConstExpr.noOpaque : ConstExpr → Bool
  | ConstExpr.lit _ => true
  | ConstExpr.blockItem _ => false

end

mutual

/-- No anonymous lifetime occurs anywhere in the type (opaque payloads
included). -/
def Ty.noAnon : Ty → Bool
  | Ty.path _ args => args.noAnon
  | Ty.reference lt elem =>
      (match lt with | some l => l != "_" | none => true) && elem.noAnon
  | Ty.bareFn inner => inner.noAnon
  | Ty.paren _ input output => input.noAnon && output.noAnon
  | Ty.array elem len => elem.noAnon && len.noAnon

/-- No anonymous lifetime among generic arguments. -/
def Args.noAnon : Args → Bool
  | Args.anil => true
  | Args.alt l rest => (l != "_") && rest.noAnon
  | Args.aty t rest => t.noAnon && rest.noAnon

/-- No anonymous lifetime inside an array-length expression. -/
def ConstExpr.noAnon : ConstExpr → Bool
  | ConstExpr.lit _ => true
  | ConstExpr.blockItem (Item.mk inner) => inner.noAnon

end

mutual

/-- Every reference type in the type (opaque payloads included) carries
a lifetime annotation. -/
def Ty.allRefsAnnotated : Ty → Bool
  | Ty.path _ args => args.allRefsAnnotated
  | Ty.reference lt elem => lt.isSome && elem.allRefsAnnotated
  | Ty.bareFn inner => inner.allRefsAnnotated
  | Ty.paren _ input output => input.allRefsAnnotated && output.allRefsAnnotated
  | Ty.array elem len => elem.allRefsAnnotated && len.allRefsAnnotated

/-- Every reference among generic arguments carries an annotation. -/
def Args.allRefsAnnotated : Args → Bool
  | Args.anil => true
  | Args.alt _ rest => rest.allRefsAnnotated
  | Args.aty t rest => t.allRefsAnnotated && rest.allRefsAnnotated

/-- Every reference inside an array-length expression carries an
annotation. -/
def ConstExpr.allRefsAnnotated : ConstExpr → Bool
  | ConstExpr.lit _ => true
  | ConstExpr.blockItem (Item.mk inner) => inner.allRefsAnnotated

end

mutual

/-- The visited scope of the type contains no lifetime position at all:
no reference type and no lifetime argument outside opaque boundaries.
All three passes leave such a type unchanged, and the collector counts
nothing in it. -/
def Ty.visitedLifetimeFree : Ty → Bool
  | Ty.path _ args => args.visitedLifetimeFree
  | Ty.reference _ _ => false
  | Ty.bareFn _ => true
  | Ty.paren _ _ _ => true
  | Ty.array elem _ => elem.visitedLifetimeFree

/-- No lifetime position among generic arguments outside opaque
boundaries. -/
def Args.visitedLifetimeFree : Args → Bool
  | Args.anil => true
  | Args.alt _ _ => false
  | Args.aty t rest => t.visitedLifetimeFree && rest.visitedLifetimeFree

end

/-! ## Counting assignment sites and characterizing the allocator state

`sites` counts, in visitation order, the positions at which the
allocator generates a fresh lifetime: every anonymous lifetime it
visits and every reference lacking a lifetime. `insertGens` describes
the effect of `n` successive `next_lifetime` calls on a generics
list. -/

mutual

/-- Number of fresh lifetimes the allocator generates in a type. -/
def Ty.sites : Ty → Nat
  | Ty.path _ args => args.sites
  | Ty.reference lt elem =>
      (match lt with | some l => if l = "_" then 1 else 0 | none => 1) + elem.sites
  | Ty.bareFn _ => 0
  | Ty.paren _ _ _ => 0
  | Ty.array elem _ => elem.sites

/-- Number of fresh lifetimes the allocator generates in generic
arguments. -/
def Args.sites : Args → Nat
  | Args.anil => 0
  | Args.alt l rest => (if l = "_" then 1 else 0) + rest.sites
  | Args.aty t rest => t.sites + rest.sites

end

/-- Effect on a generics list of `n` successive `next_lifetime` calls
starting at counter value `i`: the `k`-th call inserts the parameter
for `mkLifetimeIdent pre (i + k)` at position `i + k`. -/
def insertGens (pre : String) : Nat → Nat → List GenericParam → List GenericParam
  | _, 0, g => g
  | i, n + 1, g =>
      insertGens pre (i + 1) n (g.insertIdx i (GenericParam.lifetime (mkLifetimeIdent pre i)))

/-! ## Omission versus explicit anonymity -/

mutual

/-- Replace, in the visited scope, every reference lacking a lifetime
annotation by one carrying an explicit anonymous lifetime. -/
def Ty.anonymize : Ty → Ty
  | Ty.path seg args => Ty.path seg args.anonymize
  | Ty.reference lt elem =>
      Ty.reference (some (match lt with | some l => l | none => "_")) elem.anonymize
  | Ty.bareFn inner => Ty.bareFn inner
  | Ty.paren seg input output => Ty.paren seg input output
  | Ty.array elem len => Ty.array elem.anonymize len

/-- Anonymize inside generic arguments. -/
def Args.anonymize : Args → Args
  | Args.anil => Args.anil
  | Args.alt l rest => Args.alt l rest.anonymize
  | Args.aty t rest => Args.aty t.anonymize rest.anonymize

end

/-- The canonical token replacing every generated lifetime when
comparing allocator outputs up to the indices of generated names. -/
def genToken : LifetimeIdent := "__*"

/-- Whether a lifetime identifier has the shape of a generated one for
the given naming prefix. -/
def isGenerated (pre : String) (l : LifetimeIdent) : Bool :=
  ("__" ++ pre).data.isPrefixOf l.data

/-- Collapse a lifetime identifier of generated shape to the canonical
token. -/
def eraseName (pre : String) (l : LifetimeIdent) : LifetimeIdent :=
  if isGenerated pre l then genToken else l

mutual

/-- Collapse every generated-shaped lifetime in the visited scope of a
type to the canonical token. -/
def Ty.eraseGen (pre : String) : Ty → Ty
  | Ty.path seg args => Ty.path seg (args.eraseGen pre)
  | Ty.reference lt elem =>
      Ty.reference (lt.map (eraseName pre)) (elem.eraseGen pre)
  | Ty.bareFn inner => Ty.bareFn inner
  | Ty.paren seg input output => Ty.paren seg input output
  | Ty.array elem len => Ty.array (elem.eraseGen pre) len

/-- Collapse generated-shaped lifetimes among generic arguments. -/
def Args.eraseGen (pre : String) : Args → Args
  | Args.anil => Args.anil
  | Args.alt l rest => Args.alt (eraseName pre l) (rest.eraseGen pre)
  | Args.aty t rest => Args.aty (t.eraseGen pre) (rest.eraseGen pre)

end

mutual

/-- What the allocator's output looks like after collapsing generated
names: every assignment site carries the canonical token, every other
lifetime is erased in place, opaque payloads are untouched. -/
def Ty.fillErase (pre : String) : Ty → Ty
  | Ty.path seg args => Ty.path seg (args.fillErase pre)
  | Ty.reference lt elem =>
      Ty.reference
        (some (match lt with
          | some l => if l = "_" then genToken else eraseName pre l
          | none => genToken))
        (elem.fillErase pre)
  | Ty.bareFn inner => Ty.bareFn inner
  | Ty.paren seg input output => Ty.paren seg input output
  | Ty.array elem len => Ty.array (elem.fillErase pre) len

/-- The same collapse for generic arguments. -/
def Args.fillErase (pre : String) : Args → Args
  | Args.anil => Args.anil
  | Args.alt l rest =>
      Args.alt (if l = "_" then genToken else eraseName pre l) (rest.fillErase pre)
  | Args.aty t rest => Args.aty (t.fillErase pre) (rest.fillErase pre)

end

/-! ## Decimal rendering

The generated lifetime identifier embeds `toString index`; to reason
about freshness and uniqueness of generated names we prove that the
decimal rendering used by `Nat.repr` is injective. -/

/-- Big-endian decimal digit characters of a natural number (with
`specRender 0 = ['0']`), the reference rendering that
`Nat.toDigitsCore` computes. -/
def specRender (n : Nat) : List Char :=
  if _ : n < 10 then [Nat.digitChar n]
  else specRender (n / 10) ++ [Nat.digitChar (n % 10)]
decreasing_by exact Nat.div_lt_self (by omega) (by omega)

theorem toDigitsCore_eq_specRender :
    ∀ (f n : Nat) (l : List Char), n < f →
    Nat.toDigitsCore 10 f n l = specRender n ++ l := by
  intro f
  induction f with
  | zero => intro n l h; omega
  | succ f ih =>
    intro n l h
    rw [Nat.toDigitsCore]
    by_cases h10 : n / 10 = 0
    · have hn : n < 10 := by omega
      rw [specRender]
      simp [h10, hn, Nat.mod_eq_of_lt hn]
    · have hn : ¬ n < 10 := by omega
      have hlt : n / 10 < f := by
        have := Nat.div_lt_self (show 0 < n by omega) (show 1 < 10 by omega)
        omega
      rw [specRender]
      simp only [h10, if_false, hn, dif_neg, not_false_iff]
      rw [ih (n / 10) _ hlt]
      simp

theorem repr_eq_specRender (n : Nat) : Nat.repr n = (specRender n).asString := by
  rw [Nat.repr, Nat.toDigits, toDigitsCore_eq_specRender (n + 1) n [] (by omega)]
  simp

/-- Recover a number from its decimal digit characters. -/
def listVal (l : List Char) : Nat :=
  l.foldl (fun a c => 10 * a + (c.toNat - 48)) 0

theorem digitChar_val : ∀ d, d < 10 → (Nat.digitChar d).toNat - 48 = d := by decide

theorem listVal_specRender (n : Nat) : listVal (specRender n) = n := by
  induction n using Nat.strong_induction_on with
  | _ n ih =>
    by_cases h : n < 10
    · rw [specRender]
      simp only [h, dif_pos, listVal, List.foldl_cons, List.foldl_nil]
      rw [digitChar_val n h]
      omega
    · rw [specRender]
      simp only [h, dif_neg, not_false_iff]
      have hd : n / 10 < n := Nat.div_lt_self (by omega) (by omega)
      have ihd := ih (n / 10) hd
      rw [listVal, List.foldl_append]
      rw [show List.foldl (fun a c => 10 * a + (c.toNat - 48)) 0 (specRender (n / 10)) =
            listVal (specRender (n / 10)) from rfl, ihd]
      simp only [List.foldl_cons, List.foldl_nil]
      rw [digitChar_val (n % 10) (Nat.mod_lt n (by omega))]
      omega

theorem specRender_injective : Function.Injective specRender := by
  intro m n h
  have := listVal_specRender m
  rw [h, listVal_specRender n] at this
  omega

theorem natRepr_injective : Function.Injective Nat.repr := by
  intro m n h
  apply specRender_injective
  rw [repr_eq_specRender, repr_eq_specRender] at h
  have := congrArg String.data h
  simpa [List.asString] using this

theorem mkLifetimeIdent_index_injective (pre : String) {i j : Nat}
    (h : mkLifetimeIdent pre i = mkLifetimeIdent pre j) : i = j := by
  apply natRepr_injective
  apply String.ext
  have h2 := congrArg String.data h
  rw [mkLifetimeIdent, mkLifetimeIdent] at h2
  rw [String.data_append, String.data_append, String.data_append,
    String.data_append] at h2
  exact List.append_cancel_left h2

theorem mkLifetimeIdent_ne_anon (pre : String) (i : Nat) :
    mkLifetimeIdent pre i ≠ "_" := by
  intro h
  have h2 := congrArg String.data h
  rw [mkLifetimeIdent, String.data_append, String.data_append] at h2
  have h3 := congrArg List.length h2
  simp [List.length_append] at h3

theorem isGenerated_mkLifetimeIdent (pre : String) (i : Nat) :
    isGenerated pre (mkLifetimeIdent pre i) = true := by
  rw [isGenerated, mkLifetimeIdent]
  rw [List.isPrefixOf_iff_prefix]
  rw [String.data_append, String.data_append, String.data_append]
  exact List.prefix_append _ _

/-! ## Basic allocator lemmas -/

theorem AssignLifetimes.nextLifetime_fst (pre : String) (s : AState) :
    (AssignLifetimes.nextLifetime pre s).1 =
      mkLifetimeIdent pre s.nextLifetimeIndex := rfl

theorem AssignLifetimes.nextLifetime_fst_ne (pre : String) (s : AState) :
    (AssignLifetimes.nextLifetime pre s).1 ≠ "_" :=
  mkLifetimeIdent_ne_anon pre s.nextLifetimeIndex

theorem AssignLifetimes.visitLifetime_fst_ne (pre : String)
    (l : LifetimeIdent) (s : AState) :
    (AssignLifetimes.visitLifetime pre l s).1 ≠ "_" := by
  by_cases hl : l = "_"
  · subst hl
    simp only [AssignLifetimes.visitLifetime, if_pos]
    exact AssignLifetimes.nextLifetime_fst_ne pre s
  · simp [AssignLifetimes.visitLifetime, hl]

theorem AssignLifetimes.visitLifetime_of_ne (pre : String) {l : LifetimeIdent}
    (hl : l ≠ "_") (s : AState) :
    AssignLifetimes.visitLifetime pre l s = (l, s) := by
  simp [AssignLifetimes.visitLifetime, hl]

theorem AssignLifetimes.visitConstExpr_id (ce : ConstExpr) (s : AState) :
    AssignLifetimes.visitConstExpr ce s = (ce, s) := by
  cases ce <;> rfl

/-! ## The allocator eliminates anonymous markers and annotates all
references (within a subtree free of opaque boundaries) -/

mutual

theorem AssignLifetimes.visitType_noAnon (pre : String) :
    ∀ (t : Ty) (s : AState), t.noOpaque = true →
      (AssignLifetimes.visitType pre t s).1.noAnon = true
  | Ty.path seg args, s, h => by
      simp only [AssignLifetimes.visitType, Ty.noAnon]
      exact AssignLifetimes.visitArgs_noAnon pre args s
        (by simpa [Ty.noOpaque] using h)
  | Ty.reference (some l) elem, s, h => by
      simp only [AssignLifetimes.visitType, Ty.noAnon, Bool.and_eq_true,
        bne_iff_ne, ne_eq]
      exact ⟨AssignLifetimes.visitLifetime_fst_ne pre l s,
        AssignLifetimes.visitType_noAnon pre elem _
          (by simpa [Ty.noOpaque] using h)⟩
  | Ty.reference none elem, s, h => by
      simp only [AssignLifetimes.visitType, Ty.noAnon, Bool.and_eq_true,
        bne_iff_ne, ne_eq]
      exact ⟨AssignLifetimes.nextLifetime_fst_ne pre _,
        AssignLifetimes.visitType_noAnon pre elem _
          (by simpa [Ty.noOpaque] using h)⟩
  | Ty.bareFn inner, s, h => by simp [Ty.noOpaque] at h
  | Ty.paren seg input output, s, h => by simp [Ty.noOpaque] at h
  | Ty.array elem len, s, h => by
      have h1 : elem.noOpaque = true ∧ len.noOpaque = true := by
        simpa [Ty.noOpaque] using h
      cases len with
      | lit n =>
          simp only [AssignLifetimes.visitType, Ty.noAnon,
            AssignLifetimes.visitConstExpr_id, Bool.and_eq_true]
          exact ⟨AssignLifetimes.visitType_noAnon pre elem s h1.1, by
            simp [ConstExpr.noAnon]⟩
      | blockItem it =>
          have := h1.2
          simp [ConstExpr.noOpaque] at this

theorem AssignLifetimes.visitArgs_noAnon (pre : String) :
    ∀ (a : Args) (s : AState), a.noOpaque = true →
      (AssignLifetimes.visitArgs pre a s).1.noAnon = true
  | Args.anil, s, _ => by simp [AssignLifetimes.visitArgs, Args.noAnon]
  | Args.alt l rest, s, h => by
      simp only [AssignLifetimes.visitArgs, Args.noAnon, Bool.and_eq_true,
        bne_iff_ne, ne_eq]
      exact ⟨AssignLifetimes.visitLifetime_fst_ne pre l s,
        AssignLifetimes.visitArgs_noAnon pre rest _
          (by simpa [Args.noOpaque] using h)⟩
  | Args.aty t rest, s, h => by
      have h1 : t.noOpaque = true ∧ rest.noOpaque = true := by
        simpa [Args.noOpaque] using h
      simp only [AssignLifetimes.visitArgs, Args.noAnon, Bool.and_eq_true]
      exact ⟨AssignLifetimes.visitType_noAnon pre t s h1.1,
        AssignLifetimes.visitArgs_noAnon pre rest _ h1.2⟩

end

mutual

theorem AssignLifetimes.visitType_allRefsAnnotated (pre : String) :
    ∀ (t : Ty) (s : AState), t.noOpaque = true →
      (AssignLifetimes.visitType pre t s).1.allRefsAnnotated = true
  | Ty.path seg args, s, h => by
      simp only [AssignLifetimes.visitType, Ty.allRefsAnnotated]
      exact AssignLifetimes.visitArgs_allRefsAnnotated pre args s
        (by simpa [Ty.noOpaque] using h)
  | Ty.reference (some l) elem, s, h => by
      simp only [AssignLifetimes.visitType, Ty.allRefsAnnotated,
        Option.isSome_some, Bool.true_and]
      exact AssignLifetimes.visitType_allRefsAnnotated pre elem _
        (by simpa [Ty.noOpaque] using h)
  | Ty.reference none elem, s, h => by
      simp only [AssignLifetimes.visitType, Ty.allRefsAnnotated,
        Option.isSome_some, Bool.true_and]
      exact AssignLifetimes.visitType_allRefsAnnotated pre elem _
        (by simpa [Ty.noOpaque] using h)
  | Ty.bareFn inner, s, h => by simp [Ty.noOpaque] at h
  | Ty.paren seg input output, s, h => by simp [Ty.noOpaque] at h
  | Ty.array elem len, s, h => by
      have h1 : elem.noOpaque = true ∧ len.noOpaque = true := by
        simpa [Ty.noOpaque] using h
      cases len with
      | lit n =>
          simp only [AssignLifetimes.visitType, Ty.allRefsAnnotated,
            AssignLifetimes.visitConstExpr_id, Bool.and_eq_true]
          exact ⟨AssignLifetimes.visitType_allRefsAnnotated pre elem s h1.1, by
            simp [ConstExpr.allRefsAnnotated]⟩
      | blockItem it =>
          have := h1.2
          simp [ConstExpr.noOpaque] at this

theorem AssignLifetimes.visitArgs_allRefsAnnotated (pre : String) :
    ∀ (a : Args) (s : AState), a.noOpaque = true →
      (AssignLifetimes.visitArgs pre a s).1.allRefsAnnotated = true
  | Args.anil, s, _ => by simp [AssignLifetimes.visitArgs, Args.allRefsAnnotated]
  | Args.alt l rest, s, h => by
      simp only [AssignLifetimes.visitArgs, Args.allRefsAnnotated]
      exact AssignLifetimes.visitArgs_allRefsAnnotated pre rest _
        (by simpa [Args.noOpaque] using h)
  | Args.aty t rest, s, h => by
      have h1 : t.noOpaque = true ∧ rest.noOpaque = true := by
        simpa [Args.noOpaque] using h
      simp only [AssignLifetimes.visitArgs, Args.allRefsAnnotated,
        Bool.and_eq_true]
      exact ⟨AssignLifetimes.visitType_allRefsAnnotated pre t s h1.1,
        AssignLifetimes.visitArgs_allRefsAnnotated pre rest _ h1.2⟩

end

/-! ## All three passes leave a lifetime-free visited scope unchanged -/

mutual

theorem AssignLifetimes.visitType_of_lifetimeFree (pre : String) :
    ∀ (t : Ty) (s : AState), t.visitedLifetimeFree = true →
      AssignLifetimes.visitType pre t s = (t, s)
  | Ty.path seg args, s, h => by
      simp only [AssignLifetimes.visitType]
      rw [AssignLifetimes.visitArgs_of_lifetimeFree pre args s
        (by simpa [Ty.visitedLifetimeFree] using h)]
  | Ty.reference (some l) elem, s, h => by
      simp [Ty.visitedLifetimeFree] at h
  | Ty.reference none elem, s, h => by
      simp [Ty.visitedLifetimeFree] at h
  | Ty.bareFn inner, s, h => rfl
  | Ty.paren seg input output, s, h => rfl
  | Ty.array elem len, s, h => by
      simp only [AssignLifetimes.visitType]
      rw [AssignLifetimes.visitType_of_lifetimeFree pre elem s
        (by simpa [Ty.visitedLifetimeFree] using h)]
      rw [AssignLifetimes.visitConstExpr_id]

theorem AssignLifetimes.visitArgs_of_lifetimeFree (pre : String) :
    ∀ (a : Args) (s : AState), a.visitedLifetimeFree = true →
      AssignLifetimes.visitArgs pre a s = (a, s)
  | Args.anil, s, _ => rfl
  | Args.alt l rest, s, h => by
      simp [Args.visitedLifetimeFree] at h
  | Args.aty t rest, s, h => by
      have h1 : t.visitedLifetimeFree = true ∧ rest.visitedLifetimeFree = true := by
        simpa [Args.visitedLifetimeFree] using h
      simp only [AssignLifetimes.visitArgs]
      rw [AssignLifetimes.visitType_of_lifetimeFree pre t s h1.1]
      rw [AssignLifetimes.visitArgs_of_lifetimeFree pre rest s h1.2]

end

mutual

theorem LifetimeCollector.collectType_of_lifetimeFree :
    ∀ (t : Ty) (acc : LifetimeCollector), t.visitedLifetimeFree = true →
      LifetimeCollector.visitType t acc = acc
  | Ty.path seg args, acc, h => by
      simp only [LifetimeCollector.visitType]
      exact LifetimeCollector.collectArgs_of_lifetimeFree args acc
        (by simpa [Ty.visitedLifetimeFree] using h)
  | Ty.reference (some l) elem, acc, h => by
      simp [Ty.visitedLifetimeFree] at h
  | Ty.reference none elem, acc, h => by
      simp [Ty.visitedLifetimeFree] at h
  | Ty.bareFn inner, acc, h => rfl
  | Ty.paren seg input output, acc, h => rfl
  | Ty.array elem len, acc, h => by
      simp only [LifetimeCollector.visitType]
      exact LifetimeCollector.collectType_of_lifetimeFree elem acc
        (by simpa [Ty.visitedLifetimeFree] using h)

theorem LifetimeCollector.collectArgs_of_lifetimeFree :
    ∀ (a : Args) (acc : LifetimeCollector), a.visitedLifetimeFree = true →
      LifetimeCollector.visitArgs a acc = acc
  | Args.anil, acc, _ => rfl
  | Args.alt l rest, acc, h => by
      simp [Args.visitedLifetimeFree] at h
  | Args.aty t rest, acc, h => by
      have h1 : t.visitedLifetimeFree = true ∧ rest.visitedLifetimeFree = true := by
        simpa [Args.visitedLifetimeFree] using h
      simp only [LifetimeCollector.visitArgs]
      rw [LifetimeCollector.collectType_of_lifetimeFree t acc h1.1]
      exact LifetimeCollector.collectArgs_of_lifetimeFree rest acc h1.2

end

mutual

theorem ElideOutputLifetime.elideType_of_lifetimeFree (el : LifetimeIdent) :
    ∀ (t : Ty), t.visitedLifetimeFree = true →
      ElideOutputLifetime.visitType el t = t
  | Ty.path seg args, h => by
      simp only [ElideOutputLifetime.visitType]
      rw [ElideOutputLifetime.elideArgs_of_lifetimeFree el args
        (by simpa [Ty.visitedLifetimeFree] using h)]
  | Ty.reference lt elem, h => by
      simp [Ty.visitedLifetimeFree] at h
  | Ty.bareFn inner, h => rfl
  | Ty.paren seg input output, h => rfl
  | Ty.array elem len, h => by
      simp only [ElideOutputLifetime.visitType]
      rw [ElideOutputLifetime.elideType_of_lifetimeFree el elem
        (by simpa [Ty.visitedLifetimeFree] using h)]

theorem ElideOutputLifetime.elideArgs_of_lifetimeFree (el : LifetimeIdent) :
    ∀ (a : Args), a.visitedLifetimeFree = true →
      ElideOutputLifetime.visitArgs el a = a
  | Args.anil, _ => rfl
  | Args.alt l rest, h => by
      simp [Args.visitedLifetimeFree] at h
  | Args.aty t rest, h => by
      have h1 : t.visitedLifetimeFree = true ∧ rest.visitedLifetimeFree = true := by
        simpa [Args.visitedLifetimeFree] using h
      simp only [ElideOutputLifetime.visitArgs]
      rw [ElideOutputLifetime.elideType_of_lifetimeFree el t h1.1]
      rw [ElideOutputLifetime.elideArgs_of_lifetimeFree el rest h1.2]

end

/-! ## Characterizing the allocator's effect on its state -/

theorem insertGens_add (pre : String) :
    ∀ (n1 i n2 : Nat) (g : List GenericParam),
      insertGens pre i (n1 + n2) g =
        insertGens pre (i + n1) n2 (insertGens pre i n1 g) := by
  intro n1
  induction n1 with
  | zero => intro i n2 g; simp [insertGens]
  | succ n ih =>
    intro i n2 g
    have hc : n + 1 + n2 = (n + n2) + 1 := by omega
    rw [hc]
    show insertGens pre (i + 1) (n + n2)
        (g.insertIdx i (GenericParam.lifetime (mkLifetimeIdent pre i))) =
      insertGens pre (i + (n + 1)) n2 (insertGens pre i (n + 1) g)
    rw [ih]
    show insertGens pre (i + 1 + n) n2 _ = _
    have hc2 : i + 1 + n = i + (n + 1) := by omega
    rw [hc2]
    rfl

theorem insertGens_one (pre : String) (i : Nat) (g : List GenericParam) :
    insertGens pre i 1 g =
      g.insertIdx i (GenericParam.lifetime (mkLifetimeIdent pre i)) := rfl

mutual

theorem AssignLifetimes.visitType_state (pre : String) :
    ∀ (t : Ty) (s : AState),
      (AssignLifetimes.visitType pre t s).2 =
        ⟨insertGens pre s.nextLifetimeIndex t.sites s.generics,
         s.nextLifetimeIndex + t.sites⟩
  | Ty.path seg args, s => by
      simp only [AssignLifetimes.visitType, Ty.sites]
      exact AssignLifetimes.visitArgs_state pre args s
  | Ty.reference (some l) elem, s => by
      by_cases hl : l = "_"
      · subst hl
        simp only [AssignLifetimes.visitType, AssignLifetimes.visitLifetime,
          if_pos, Ty.sites, AssignLifetimes.nextLifetime]
        rw [AssignLifetimes.visitType_state pre elem _]
        simp only [AState.mk.injEq]
        constructor
        · rw [show (1 : Nat) + elem.sites = 1 + elem.sites from rfl]
          rw [insertGens_add pre 1 s.nextLifetimeIndex elem.sites s.generics]
          rfl
        · omega
      · simp only [AssignLifetimes.visitType,
          AssignLifetimes.visitLifetime_of_ne pre hl, Ty.sites, if_neg hl]
        rw [AssignLifetimes.visitType_state pre elem _]
        simp
  | Ty.reference none elem, s => by
      simp only [AssignLifetimes.visitType, Ty.sites]
      rw [AssignLifetimes.nextLifetime,
        AssignLifetimes.visitType_state pre elem s]
      simp only [AState.mk.injEq]
      constructor
      · rw [show (1 : Nat) + elem.sites = elem.sites + 1 by omega]
        rw [insertGens_add pre elem.sites s.nextLifetimeIndex 1 s.generics]
        rw [insertGens_one]
      · omega
  | Ty.bareFn inner, s => by
      simp [AssignLifetimes.visitType, Ty.sites, insertGens]
  | Ty.paren seg input output, s => by
      simp [AssignLifetimes.visitType, Ty.sites, insertGens]
  | Ty.array elem len, s => by
      simp only [AssignLifetimes.visitType, AssignLifetimes.visitConstExpr_id,
        Ty.sites]
      exact AssignLifetimes.visitType_state pre elem s

theorem AssignLifetimes.visitArgs_state (pre : String) :
    ∀ (a : Args) (s : AState),
      (AssignLifetimes.visitArgs pre a s).2 =
        ⟨insertGens pre s.nextLifetimeIndex a.sites s.generics,
         s.nextLifetimeIndex + a.sites⟩
  | Args.anil, s => by
      simp [AssignLifetimes.visitArgs, Args.sites, insertGens]
  | Args.alt l rest, s => by
      by_cases hl : l = "_"
      · subst hl
        simp only [AssignLifetimes.visitArgs, AssignLifetimes.visitLifetime,
          if_pos, Args.sites, AssignLifetimes.nextLifetime]
        rw [AssignLifetimes.visitArgs_state pre rest _]
        simp only [AState.mk.injEq]
        constructor
        · rw [insertGens_add pre 1 s.nextLifetimeIndex rest.sites s.generics]
          rfl
        · omega
      · simp only [AssignLifetimes.visitArgs,
          AssignLifetimes.visitLifetime_of_ne pre hl, Args.sites, if_neg hl]
        rw [AssignLifetimes.visitArgs_state pre rest _]
        simp
  | Args.aty t rest, s => by
      simp only [AssignLifetimes.visitArgs, Args.sites]
      rw [AssignLifetimes.visitType_state pre t s]
      rw [AssignLifetimes.visitArgs_state pre rest _]
      simp only [AState.mk.injEq]
      constructor
      · rw [insertGens_add pre t.sites s.nextLifetimeIndex rest.sites s.generics]
      · omega

end

/-! ## The allocator's output up to the indices of generated names -/

theorem eraseName_mkLifetimeIdent (pre : String) (i : Nat) :
    eraseName pre (mkLifetimeIdent pre i) = genToken := by
  rw [eraseName, if_pos (isGenerated_mkLifetimeIdent pre i)]

mutual

theorem AssignLifetimes.visitType_eraseGen (pre : String) :
    ∀ (t : Ty) (s : AState),
      Ty.eraseGen pre (AssignLifetimes.visitType pre t s).1 = Ty.fillErase pre t
  | Ty.path seg args, s => by
      simp only [AssignLifetimes.visitType, Ty.eraseGen, Ty.fillErase]
      rw [AssignLifetimes.visitArgs_eraseGen pre args s]
  | Ty.reference (some l) elem, s => by
      by_cases hl : l = "_"
      · subst hl
        simp only [AssignLifetimes.visitType, AssignLifetimes.visitLifetime,
          if_pos, AssignLifetimes.nextLifetime, Ty.eraseGen, Ty.fillErase]
        simp [eraseName_mkLifetimeIdent,
          AssignLifetimes.visitType_eraseGen pre elem]
      · simp only [AssignLifetimes.visitType,
          AssignLifetimes.visitLifetime_of_ne pre hl, Ty.eraseGen,
          Ty.fillErase]
        simp [hl, AssignLifetimes.visitType_eraseGen pre elem]
  | Ty.reference none elem, s => by
      simp only [AssignLifetimes.visitType, AssignLifetimes.nextLifetime,
        Ty.eraseGen, Ty.fillErase]
      simp [eraseName_mkLifetimeIdent,
        AssignLifetimes.visitType_eraseGen pre elem]
  | Ty.bareFn inner, s => rfl
  | Ty.paren seg input output, s => rfl
  | Ty.array elem len, s => by
      simp only [AssignLifetimes.visitType, AssignLifetimes.visitConstExpr_id,
        Ty.eraseGen, Ty.fillErase]
      rw [AssignLifetimes.visitType_eraseGen pre elem s]

theorem AssignLifetimes.visitArgs_eraseGen (pre : String) :
    ∀ (a : Args) (s : AState),
      Args.eraseGen pre (AssignLifetimes.visitArgs pre a s).1 = Args.fillErase pre a
  | Args.anil, s => rfl
  | Args.alt l rest, s => by
      by_cases hl : l = "_"
      · subst hl
        simp only [AssignLifetimes.visitArgs, AssignLifetimes.visitLifetime,
          if_pos, AssignLifetimes.nextLifetime, Args.eraseGen, Args.fillErase]
        simp [eraseName_mkLifetimeIdent,
          AssignLifetimes.visitArgs_eraseGen pre rest]
      · simp only [AssignLifetimes.visitArgs,
          AssignLifetimes.visitLifetime_of_ne pre hl, Args.eraseGen,
          Args.fillErase]
        simp [hl, AssignLifetimes.visitArgs_eraseGen pre rest]
  | Args.aty t rest, s => by
      simp only [AssignLifetimes.visitArgs, Args.eraseGen, Args.fillErase]
      rw [AssignLifetimes.visitType_eraseGen pre t s]
      rw [AssignLifetimes.visitArgs_eraseGen pre rest _]

end

/-! ## Omission and explicit anonymity -/

mutual

theorem tySites_anonymize :
    ∀ (t : Ty), t.anonymize.sites = t.sites
  | Ty.path seg args => by
      simp only [Ty.anonymize, Ty.sites]
      exact argsSites_anonymize args
  | Ty.reference (some l) elem => by
      simp only [Ty.anonymize, Ty.sites]
      rw [tySites_anonymize elem]
  | Ty.reference none elem => by
      simp only [Ty.anonymize, Ty.sites]
      simp [tySites_anonymize elem]
  | Ty.bareFn inner => rfl
  | Ty.paren seg input output => rfl
  | Ty.array elem len => by
      simp only [Ty.anonymize, Ty.sites]
      exact tySites_anonymize elem

theorem argsSites_anonymize :
    ∀ (a : Args), a.anonymize.sites = a.sites
  | Args.anil => rfl
  | Args.alt l rest => by
      simp only [Args.anonymize, Args.sites]
      rw [argsSites_anonymize rest]
  | Args.aty t rest => by
      simp only [Args.anonymize, Args.sites]
      rw [tySites_anonymize t, argsSites_anonymize rest]

end

mutual

theorem tyFillErase_anonymize (pre : String) :
    ∀ (t : Ty), Ty.fillErase pre t.anonymize = Ty.fillErase pre t
  | Ty.path seg args => by
      simp only [Ty.anonymize, Ty.fillErase]
      rw [argsFillErase_anonymize pre args]
  | Ty.reference (some l) elem => by
      simp only [Ty.anonymize, Ty.fillErase]
      rw [tyFillErase_anonymize pre elem]
  | Ty.reference none elem => by
      simp only [Ty.anonymize, Ty.fillErase]
      simp [tyFillErase_anonymize pre elem]
  | Ty.bareFn inner => rfl
  | Ty.paren seg input output => rfl
  | Ty.array elem len => by
      simp only [Ty.anonymize, Ty.fillErase]
      rw [tyFillErase_anonymize pre elem]

theorem argsFillErase_anonymize (pre : String) :
    ∀ (a : Args), Args.fillErase pre a.anonymize = Args.fillErase pre a
  | Args.anil => rfl
  | Args.alt l rest => by
      simp only [Args.anonymize, Args.fillErase]
      rw [argsFillErase_anonymize pre rest]
  | Args.aty t rest => by
      simp only [Args.anonymize, Args.fillErase]
      rw [tyFillErase_anonymize pre t, argsFillErase_anonymize pre rest]

end

/-! ## Positions of the generated parameters in the generics list -/

theorem insertIdx_append_length {α : Type} :
    ∀ (xs ys : List α) (a : α), (xs ++ ys).insertIdx xs.length a = xs ++ a :: ys
  | [], ys, a => rfl
  | x :: xs, ys, a => by
      simp only [List.cons_append, List.length_cons, List.insertIdx_succ_cons]
      rw [insertIdx_append_length xs ys a]

theorem insertGens_spec (pre : String) :
    ∀ (n : Nat) (gens G : List GenericParam),
      insertGens pre gens.length n (gens ++ G) =
        gens ++ ((List.range' gens.length n).map fun k =>
          GenericParam.lifetime (mkLifetimeIdent pre k)) ++ G := by
  intro n
  induction n with
  | zero => intro gens G; simp [insertGens]
  | succ n ih =>
    intro gens G
    show insertGens pre (gens.length + 1) n
        ((gens ++ G).insertIdx gens.length
          (GenericParam.lifetime (mkLifetimeIdent pre gens.length))) = _
    rw [insertIdx_append_length gens G _]
    have h1 : gens ++ GenericParam.lifetime (mkLifetimeIdent pre gens.length) :: G =
        (gens ++ [GenericParam.lifetime (mkLifetimeIdent pre gens.length)]) ++ G := by
      simp
    have h2 : gens.length + 1 =
        (gens ++ [GenericParam.lifetime (mkLifetimeIdent pre gens.length)]).length := by
      simp
    rw [h1, h2, ih]
    simp [List.range'_succ]

theorem insertGens_from_zero (pre : String) (n : Nat) (G : List GenericParam) :
    insertGens pre 0 n G =
      ((List.range n).map fun k => GenericParam.lifetime (mkLifetimeIdent pre k)) ++ G := by
  have h := insertGens_spec pre n [] G
  simpa [List.range_eq_range'] using h

theorem generatedNames_nodup (pre : String) (k : Nat) :
    ((List.range k).map fun i => mkLifetimeIdent pre i).Nodup :=
  (List.nodup_range k).map fun {_ _} h => mkLifetimeIdent_index_injective pre h

/-! ## Claim theorems -/

/-- C1: for every type subtree visited by the allocator that contains
no opaque boundary (no nested item, function-pointer type, or
parenthesized callback-trait argument), after allocation zero anonymous
lifetime markers remain in the visited fields and every reference type
carries a lifetime annotation. -/
theorem claim1_allocator_removes_anonymous_markers
    (pre : String) (t : Ty) (s : AState) (h : t.noOpaque = true) :
    (AssignLifetimes.visitType pre t s).1.noAnon = true ∧
    (AssignLifetimes.visitType pre t s).1.allRefsAnnotated = true :=
  ⟨AssignLifetimes.visitType_noAnon pre t s h,
   AssignLifetimes.visitType_allRefsAnnotated pre t s h⟩

/-- Witness for C1: a reference without annotation around a path with
an anonymous lifetime argument, allocated from a fresh state. -/
theorem claim1_allocator_removes_anonymous_markers_witness :
    (Ty.reference none (Ty.path "T" (Args.alt "_" Args.anil))).noOpaque = true ∧
    ((AssignLifetimes.visitType "f"
        (Ty.reference none (Ty.path "T" (Args.alt "_" Args.anil)))
        ⟨[], 0⟩).1.noAnon = true ∧
     (AssignLifetimes.visitType "f"
        (Ty.reference none (Ty.path "T" (Args.alt "_" Args.anil)))
        ⟨[], 0⟩).1.allRefsAnnotated = true) :=
  ⟨by decide,
   claim1_allocator_removes_anonymous_markers "f"
     (Ty.reference none (Ty.path "T" (Args.alt "_" Args.anil))) ⟨[], 0⟩
     (by decide)⟩

/-- C5: for a receiver in the implicit-reference sugar form whose
explicit lifetime is absent or anonymous and whose declared type is a
reference type, allocation assigns one fresh lifetime and writes the
identical generated name into both the receiver's own lifetime slot and
the underlying reference type's lifetime slot. -/
theorem claim5_receiver_aliasing (pre : String) (ol lt0 : Option LifetimeIdent)
    (elem : Ty) (s : AState) (h : ol = none ∨ ol = some "_") :
    AssignLifetimes.visitReceiver pre
        ⟨some ol, false, Ty.reference lt0 elem⟩ s =
      (⟨some (some (mkLifetimeIdent pre s.nextLifetimeIndex)), false,
        Ty.reference (some (mkLifetimeIdent pre s.nextLifetimeIndex)) elem⟩,
       ⟨s.generics.insertIdx s.nextLifetimeIndex
          (GenericParam.lifetime (mkLifetimeIdent pre s.nextLifetimeIndex)),
        s.nextLifetimeIndex + 1⟩) := by
  rcases h with h | h <;> subst h <;>
    simp [AssignLifetimes.visitReceiver, namedLifetime,
      AssignLifetimes.nextLifetime]

/-- Witness for C5: the sugar receiver of a method written as
`fn m(&self)`, whose synthesized type is an unannotated reference. -/
theorem claim5_receiver_aliasing_witness :
    (none = (none : Option LifetimeIdent) ∨
      (none : Option LifetimeIdent) = some "_") ∧
    AssignLifetimes.visitReceiver "f"
        ⟨some none, false, Ty.reference none (Ty.path "Self" Args.anil)⟩
        ⟨[], 0⟩ =
      (⟨some (some (mkLifetimeIdent "f" 0)), false,
        Ty.reference (some (mkLifetimeIdent "f" 0)) (Ty.path "Self" Args.anil)⟩,
       ⟨[GenericParam.lifetime (mkLifetimeIdent "f" 0)], 1⟩) :=
  ⟨Or.inl rfl,
   claim5_receiver_aliasing "f" none none (Ty.path "Self" Args.anil) ⟨[], 0⟩
     (Or.inl rfl)⟩

/-- C8: lifetime markers inside a function-pointer type, a
parenthesized callback-trait argument, or a nested item are never
modified by the allocator or the elider and never counted by the
collector: those subtrees come out of every pass unchanged, and
contribute nothing to the collector's accumulator (hence nothing to the
elision decision). -/
theorem claim8_opaque_boundaries_inviolate
    (pre el seg : String) (inner input outputT elem : Ty) (it : Item)
    (s : AState) (acc : LifetimeCollector) :
    (AssignLifetimes.visitType pre (Ty.bareFn inner) s = (Ty.bareFn inner, s)) ∧
    (AssignLifetimes.visitType pre (Ty.paren seg input outputT) s =
      (Ty.paren seg input outputT, s)) ∧
    (AssignLifetimes.visitItem it s = (it, s)) ∧
    ((AssignLifetimes.visitType pre (Ty.array elem (ConstExpr.blockItem it)) s) =
      (Ty.array (AssignLifetimes.visitType pre elem s).1 (ConstExpr.blockItem it),
       (AssignLifetimes.visitType pre elem s).2)) ∧
    (LifetimeCollector.visitType (Ty.bareFn inner) acc = acc) ∧
    (LifetimeCollector.visitType (Ty.paren seg input outputT) acc = acc) ∧
    (LifetimeCollector.visitType (Ty.array elem (ConstExpr.blockItem it)) acc =
      LifetimeCollector.visitType elem acc) ∧
    (ElideOutputLifetime.visitType el (Ty.bareFn inner) = Ty.bareFn inner) ∧
    (ElideOutputLifetime.visitType el (Ty.paren seg input outputT) =
      Ty.paren seg input outputT) ∧
    (ElideOutputLifetime.visitType el (Ty.array elem (ConstExpr.blockItem it)) =
      Ty.array (ElideOutputLifetime.visitType el elem) (ConstExpr.blockItem it)) :=
  ⟨rfl, rfl, rfl, rfl, rfl, rfl, rfl, rfl, rfl, rfl⟩

/-- C9: each fresh lifetime generated by one allocator instance is the
naming prefix followed by an index starting at 0 and incrementing by
one per assignment; its parameter is inserted into the generics list at
the position equal to that index, so for a fresh instance the generated
parameters end up in discovery order in front of any pre-existing
parameters, and the generated names are pairwise distinct. -/
theorem claim9_fresh_lifetime_generation :
    (∀ (pre : String) (s : AState),
      (AssignLifetimes.nextLifetime pre s).1 =
          mkLifetimeIdent pre s.nextLifetimeIndex ∧
      (AssignLifetimes.nextLifetime pre s).2.nextLifetimeIndex =
          s.nextLifetimeIndex + 1 ∧
      (AssignLifetimes.nextLifetime pre s).2.generics =
          s.generics.insertIdx s.nextLifetimeIndex
            (GenericParam.lifetime (mkLifetimeIdent pre s.nextLifetimeIndex))) ∧
    (∀ (pre : String) (t : Ty) (G : List GenericParam),
      (AssignLifetimes.visitType pre t ⟨G, 0⟩).2.generics =
        ((List.range t.sites).map fun k =>
          GenericParam.lifetime (mkLifetimeIdent pre k)) ++ G) ∧
    (∀ (pre : String) (k : Nat),
      ((List.range k).map fun i => mkLifetimeIdent pre i).Nodup) := by
  refine ⟨fun pre s => ⟨rfl, rfl, rfl⟩, fun pre t G => ?_, generatedNames_nodup⟩
  rw [AssignLifetimes.visitType_state pre t ⟨G, 0⟩]
  exact insertGens_from_zero pre t.sites G

/-- Whether a type is a reference type (the shape tested by
`visit_receiver_mut` before aliasing the receiver lifetime). -/
def Ty.isReference : Ty → Bool
  | Ty.reference _ _ => true
  | _ => false

/-- C10: in the implicit-reference sugar form (no `self: T` annotation)
the allocator mutates the receiver only when its lifetime is absent or
anonymous and its declared type is a reference type; in every other
sugar-form case — lifetime already named, by-value receiver, or
underlying type not a reference — the receiver and its whole type
subtree are returned unchanged (so an anonymous marker inside such a
receiver's declared type survives allocation). -/
theorem claim10_receiver_sugar_frame (pre : String) (r : Receiver)
    (s : AState) (hc : r.colon = false) :
    (∀ l, r.reference = some (some l) → l ≠ "_" →
      AssignLifetimes.visitReceiver pre r s = (r, s)) ∧
    (r.reference = none → AssignLifetimes.visitReceiver pre r s = (r, s)) ∧
    (r.ty.isReference = false → AssignLifetimes.visitReceiver pre r s = (r, s)) := by
  obtain ⟨rref, rcolon, rty⟩ := r
  simp only at hc
  subst hc
  refine ⟨?_, ?_, ?_⟩
  · intro l hl hne
    simp only at hl
    subst hl
    simp [AssignLifetimes.visitReceiver, namedLifetime, hne]
  · intro hl
    simp only at hl
    subst hl
    simp [AssignLifetimes.visitReceiver]
  · intro hl
    simp only [Ty.isReference] at hl
    cases rref with
    | none => simp [AssignLifetimes.visitReceiver]
    | some lt =>
      by_cases hn : namedLifetime lt
      · simp [AssignLifetimes.visitReceiver, hn]
      · cases rty with
        | reference a b => simp [Ty.isReference] at hl
        | path seg args => simp [AssignLifetimes.visitReceiver, hn]
        | bareFn inner => simp [AssignLifetimes.visitReceiver, hn]
        | paren seg input outputT => simp [AssignLifetimes.visitReceiver, hn]
        | array elem len => simp [AssignLifetimes.visitReceiver, hn]

/-- Witness for C10: a sugar receiver `&'a self` whose synthesized type
contains an anonymous lifetime; allocation leaves the receiver (and the
marker inside it) untouched. -/
theorem claim10_receiver_sugar_frame_witness :
    (⟨some (some "a"), false,
        Ty.reference (some "a") (Ty.reference (some "_") (Ty.path "u8" Args.anil))⟩ :
      Receiver).colon = false ∧
    AssignLifetimes.visitReceiver "f"
        ⟨some (some "a"), false,
          Ty.reference (some "a") (Ty.reference (some "_") (Ty.path "u8" Args.anil))⟩
        ⟨[], 0⟩ =
      (⟨some (some "a"), false,
        Ty.reference (some "a") (Ty.reference (some "_") (Ty.path "u8" Args.anil))⟩,
       ⟨[], 0⟩) ∧
    (Ty.reference (some "a")
        (Ty.reference (some "_") (Ty.path "u8" Args.anil))).noAnon = false :=
  ⟨rfl,
   (claim10_receiver_sugar_frame "f"
      ⟨some (some "a"), false,
        Ty.reference (some "a") (Ty.reference (some "_") (Ty.path "u8" Args.anil))⟩
      ⟨[], 0⟩ rfl).1 "a" rfl (by decide),
   by decide⟩

/-- C3: for a signature with no receiver, exactly one typed parameter
that is a reference annotated with a single named lifetime `r` (and no
other lifetime reference in the parameters), and a return type that is
a reference with an anonymous lifetime, orchestration rewrites the
return type's lifetime to `r`. -/
theorem claim3_single_input_elision (r : LifetimeIdent) (elem outElem : Ty)
    (G : List GenericParam) (hr : r ≠ "_")
    (he : elem.visitedLifetimeFree = true)
    (ho : outElem.visitedLifetimeFree = true) :
    (NormalizeLifetimes.visitSignature
       ⟨G, [FnArg.typed (Ty.reference (some r) elem)],
        some (Ty.reference (some "_") outElem)⟩).output =
      some (Ty.reference (some r) outElem) := by
  have hassign : AssignLifetimes.visitType "f" (Ty.reference (some r) elem)
      ⟨G, 0⟩ = (Ty.reference (some r) elem, ⟨G, 0⟩) := by
    simp only [AssignLifetimes.visitType,
      AssignLifetimes.visitLifetime_of_ne "f" hr,
      AssignLifetimes.visitType_of_lifetimeFree "f" elem _ he]
  have hinputs : AssignLifetimes.visitInputs "f"
      [FnArg.typed (Ty.reference (some r) elem)] ⟨G, 0⟩ =
      ([FnArg.typed (Ty.reference (some r) elem)], ⟨G, 0⟩) := by
    simp only [AssignLifetimes.visitInputs, AssignLifetimes.visitFnArg, hassign]
  have hrec : receiverElisionCandidate
      [FnArg.typed (Ty.reference (some r) elem)] = none := rfl
  have hcoll : LifetimeCollector.visitType (Ty.reference (some r) elem)
      LifetimeCollector.nothing = LifetimeCollector.single r := by
    simp only [LifetimeCollector.visitType, LifetimeCollector.visitLifetime]
    exact LifetimeCollector.collectType_of_lifetimeFree elem _ he
  have hcand : collectorElisionCandidate
      [FnArg.typed (Ty.reference (some r) elem)] = some r := by
    simp only [collectorElisionCandidate, List.foldl_cons, List.foldl_nil, hcoll]
  have helide : ElideOutputLifetime.visitType r (Ty.reference (some "_") outElem) =
      Ty.reference (some r) outElem := by
    simp only [ElideOutputLifetime.visitType,
      ElideOutputLifetime.elideType_of_lifetimeFree r outElem ho]
    simp
  simp only [NormalizeLifetimes.visitSignature, hinputs, hrec, hcand, helide]

/-- Witness for C3: `fn f(x: &'a u8) -> &'_ u8` elides the output
lifetime to `'a`. -/
theorem claim3_single_input_elision_witness :
    ("a" : LifetimeIdent) ≠ "_" ∧
    (Ty.path "u8" Args.anil).visitedLifetimeFree = true ∧
    (NormalizeLifetimes.visitSignature
       ⟨[], [FnArg.typed (Ty.reference (some "a") (Ty.path "u8" Args.anil))],
        some (Ty.reference (some "_") (Ty.path "u8" Args.anil))⟩).output =
      some (Ty.reference (some "a") (Ty.path "u8" Args.anil)) :=
  ⟨by decide, by decide,
   claim3_single_input_elision "a" (Ty.path "u8" Args.anil)
     (Ty.path "u8" Args.anil) [] (by decide) (by decide) (by decide)⟩

/-- C2: when the first input is a receiver that is (or resolves
through) a reference type with lifetime `rl`, and the return type
carries an anonymous lifetime, orchestration rewrites the output
lifetime to the receiver's lifetime even when another typed reference
parameter carries a different named lifetime — the receiver lookup
takes precedence over the parameter collector. -/
theorem claim2_receiver_precedence (rl b : LifetimeIdent)
    (selfElem otherElem outElem : Ty) (G : List GenericParam)
    (hrl : rl ≠ "_") (_hb : b ≠ "_") (_hbd : b ≠ rl)
    (ho : outElem.visitedLifetimeFree = true) :
    (NormalizeLifetimes.visitSignature
       ⟨G,
        [FnArg.receiver ⟨some (some rl), false, Ty.reference (some rl) selfElem⟩,
         FnArg.typed (Ty.reference (some b) otherElem)],
        some (Ty.reference (some "_") outElem)⟩).output =
      some (Ty.reference (some rl) outElem) := by
  have hrecv : AssignLifetimes.visitReceiver "f"
      ⟨some (some rl), false, Ty.reference (some rl) selfElem⟩ ⟨G, 0⟩ =
      (⟨some (some rl), false, Ty.reference (some rl) selfElem⟩, ⟨G, 0⟩) := by
    simp [AssignLifetimes.visitReceiver, namedLifetime, hrl]
  have helide : ElideOutputLifetime.visitType rl
      (Ty.reference (some "_") outElem) = Ty.reference (some rl) outElem := by
    simp only [ElideOutputLifetime.visitType,
      ElideOutputLifetime.elideType_of_lifetimeFree rl outElem ho]
    simp
  have hcand : ∀ (tail : List FnArg),
      receiverElisionCandidate
        (FnArg.receiver ⟨some (some rl), false, Ty.reference (some rl) selfElem⟩
          :: tail) = some rl := by
    intro tail
    simp [receiverElisionCandidate, Receiver.lifetimeOf]
  simp only [NormalizeLifetimes.visitSignature, AssignLifetimes.visitInputs,
    AssignLifetimes.visitFnArg, hrecv, hcand, helide]

/-- Witness for C2: `fn m(&'a self, x: &'b u8) -> &'_ u8` elides the
output lifetime to the receiver's `'a`, not to `'b`. -/
theorem claim2_receiver_precedence_witness :
    ("a" : LifetimeIdent) ≠ "_" ∧ ("b" : LifetimeIdent) ≠ "_" ∧
    ("b" : LifetimeIdent) ≠ "a" ∧
    (NormalizeLifetimes.visitSignature
       ⟨[],
        [FnArg.receiver ⟨some (some "a"), false,
           Ty.reference (some "a") (Ty.path "Self" Args.anil)⟩,
         FnArg.typed (Ty.reference (some "b") (Ty.path "u8" Args.anil))],
        some (Ty.reference (some "_") (Ty.path "u8" Args.anil))⟩).output =
      some (Ty.reference (some "a") (Ty.path "u8" Args.anil)) :=
  ⟨by decide, by decide, by decide,
   claim2_receiver_precedence "a" "b" (Ty.path "Self" Args.anil)
     (Ty.path "u8" Args.anil) (Ty.path "u8" Args.anil) []
     (by decide) (by decide) (by decide) (by decide)⟩

/-- C4: the collector reaches the terminal `multiple` state on the
second lifetime occurrence even when it is a literal repeat of the same
name; consequently a receiver-less signature whose two typed reference
parameters carry named lifetimes (equal or distinct) yields no elision
candidate, and an anonymous lifetime in the return type is left
unresolved. -/
theorem claim4_second_occurrence_defeats_elision :
    (∀ (l l0 : LifetimeIdent),
      (LifetimeCollector.single l0).visitLifetime l =
        LifetimeCollector.multiple) ∧
    (∀ (r r' : LifetimeIdent) (A B C : Ty) (G : List GenericParam),
      r ≠ "_" → r' ≠ "_" →
      A.visitedLifetimeFree = true → B.visitedLifetimeFree = true →
      (NormalizeLifetimes.visitSignature
         ⟨G,
          [FnArg.typed (Ty.reference (some r) A),
           FnArg.typed (Ty.reference (some r') B)],
          some (Ty.reference (some "_") C)⟩).output =
        some (Ty.reference (some "_") C)) := by
  refine ⟨fun l l0 => rfl, fun r r' A B C G hr hr' hA hB => ?_⟩
  have ha1 : AssignLifetimes.visitType "f" (Ty.reference (some r) A)
      ⟨G, 0⟩ = (Ty.reference (some r) A, ⟨G, 0⟩) := by
    simp only [AssignLifetimes.visitType,
      AssignLifetimes.visitLifetime_of_ne "f" hr,
      AssignLifetimes.visitType_of_lifetimeFree "f" A _ hA]
  have ha2 : AssignLifetimes.visitType "f" (Ty.reference (some r') B)
      ⟨G, 0⟩ = (Ty.reference (some r') B, ⟨G, 0⟩) := by
    simp only [AssignLifetimes.visitType,
      AssignLifetimes.visitLifetime_of_ne "f" hr',
      AssignLifetimes.visitType_of_lifetimeFree "f" B _ hB]
  have hc1 : LifetimeCollector.visitType (Ty.reference (some r) A)
      LifetimeCollector.nothing = LifetimeCollector.single r := by
    simp only [LifetimeCollector.visitType, LifetimeCollector.visitLifetime]
    exact LifetimeCollector.collectType_of_lifetimeFree A _ hA
  have hc2 : LifetimeCollector.visitType (Ty.reference (some r') B)
      (LifetimeCollector.single r) = LifetimeCollector.multiple := by
    simp only [LifetimeCollector.visitType, LifetimeCollector.visitLifetime]
    exact LifetimeCollector.collectType_of_lifetimeFree B _ hB
  have hcand : collectorElisionCandidate
      [FnArg.typed (Ty.reference (some r) A),
       FnArg.typed (Ty.reference (some r') B)] = none := by
    simp only [collectorElisionCandidate, List.foldl_cons, List.foldl_nil,
      hc1, hc2]
  have hrec : receiverElisionCandidate
      [FnArg.typed (Ty.reference (some r) A),
       FnArg.typed (Ty.reference (some r') B)] = none := rfl
  simp only [NormalizeLifetimes.visitSignature, AssignLifetimes.visitInputs,
    AssignLifetimes.visitFnArg, ha1, ha2, hrec, hcand]

/-- Witness for C4: `fn f(x: &'a u8, y: &'a u8) -> &'_ u8` — a literal
repeat of the same lifetime name — leaves the anonymous output
lifetime unresolved. -/
theorem claim4_second_occurrence_defeats_elision_witness :
    ("a" : LifetimeIdent) ≠ "_" ∧
    (NormalizeLifetimes.visitSignature
       ⟨[],
        [FnArg.typed (Ty.reference (some "a") (Ty.path "u8" Args.anil)),
         FnArg.typed (Ty.reference (some "a") (Ty.path "u8" Args.anil))],
        some (Ty.reference (some "_") (Ty.path "u8" Args.anil))⟩).output =
      some (Ty.reference (some "_") (Ty.path "u8" Args.anil)) :=
  ⟨by decide,
   claim4_second_occurrence_defeats_elision.2 "a" "a"
     (Ty.path "u8" Args.anil) (Ty.path "u8" Args.anil) (Ty.path "u8" Args.anil)
     [] (by decide) (by decide) (by decide) (by decide)⟩

/-- C6 counterexample: for an impl block with one method, the
orchestrator's processing order is signature first, header self-type
last — not header first as claimed: the recorded trace is
`[sigVisited 0, headerAssigned]`, not `[headerAssigned, sigVisited 0]`. -/
theorem claim6_counterexample :
    (NormalizeLifetimes.visitItemImpl
        ⟨[], Ty.path "Foo" Args.anil, [⟨[], [], none⟩]⟩).2 =
      [Event.sigVisited 0, Event.headerAssigned] ∧
    (NormalizeLifetimes.visitItemImpl
        ⟨[], Ty.path "Foo" Args.anil, [⟨[], [], none⟩]⟩).2 ≠
      [Event.headerAssigned, Event.sigVisited 0] := by
  constructor
  · rfl
  · decide

/-- C6 (amended): when the orchestrator processes an impl block, all
method signatures are processed first (in order), and the
implementing-type header's self type is visited and assigned lifetimes
last — after every signature. -/
theorem claim6_header_assigned_after_signatures (ib : ItemImpl) :
    (NormalizeLifetimes.visitItemImpl ib).2 =
      ((List.range ib.fns.length).map Event.sigVisited) ++
        [Event.headerAssigned] := rfl

/-- C7 counterexample: allocating `& &'_ u8` and allocating its
anonymized form `&'_ &'_ u8` from the same fresh state yield different
rewritten types — the omitted outer slot is assigned its index after
the element is visited, an explicit anonymous marker before. -/
theorem claim7_counterexample :
    (AssignLifetimes.visitType "f"
        (Ty.anonymize
          (Ty.reference none
            (Ty.reference (some "_") (Ty.path "u8" Args.anil)))) ⟨[], 0⟩).1 ≠
    (AssignLifetimes.visitType "f"
        (Ty.reference none
          (Ty.reference (some "_") (Ty.path "u8" Args.anil))) ⟨[], 0⟩).1 := by
  decide

/-- C7 (amended): replacing omitted lifetime annotations by anonymous
markers before allocation yields the identical final allocator state
(generics list and counter), and rewritten types that agree after
collapsing the indices of the generated lifetime names; only the
distribution of indices between omission sites and anonymous-marker
sites can differ. -/
theorem claim7_omission_equals_anonymity_up_to_indices
    (pre : String) (t : Ty) (s : AState) :
    (AssignLifetimes.visitType pre t.anonymize s).2 =
      (AssignLifetimes.visitType pre t s).2 ∧
    Ty.eraseGen pre (AssignLifetimes.visitType pre t.anonymize s).1 =
      Ty.eraseGen pre (AssignLifetimes.visitType pre t s).1 := by
  constructor
  · rw [AssignLifetimes.visitType_state pre t.anonymize s,
      AssignLifetimes.visitType_state pre t s, tySites_anonymize t]
  · rw [AssignLifetimes.visitType_eraseGen pre t.anonymize s,
      AssignLifetimes.visitType_eraseGen pre t s,
      tyFillErase_anonymize pre t]
